import Mathlib

/-!
Verification development for the enterprise-log-analyzer backend.

The definitions below are a shallow embedding of the Python sources under
`app/`: the issues aggregator (`app/streams/issues_aggregator.py`), the
online clusterer (`app/services/online_clustering.py`), the cluster enricher
(`app/streams/cluster_enricher.py`) and the alerts query layer
(`app/api/v1/endpoints/alerts.py`, `environments.py`, `incidents.py`).
Pure helpers become Lean functions; the stateful stream consumers become
explicit state-passing functions whose external calls (vector store, LLM,
Redis) are modelled by explicitly passed outcomes, and whose Redis writes are
recorded as explicit effect lists.  Python floats (distances, timestamps) are
modelled as rationals, which preserves the ordering comparisons the code
performs.
-/

/-! ### Basic character and string utilities -/

/-- Word character in the sense of the regex `\b` boundary (`\w`), restricted
to its ASCII behaviour: letters, digits and underscore. -/
def isWordChar (c : Char) : Bool := c.isAlphanum || c = '_'

/-- Length of the maximal leading digit run, together with the rest. -/
def takeDigits : List Char → Nat × List Char
  | [] => (0, [])
  | c :: rest =>
    if c.isDigit then
      let p := takeDigits rest
      (p.1 + 1, p.2)
    else (0, c :: rest)

/-- Consume exactly `k` digits. -/
def eatDigits : Nat → List Char → Option (List Char)
  | 0, cs => some cs
  | _ + 1, [] => none
  | k + 1, c :: rest => if c.isDigit then eatDigits k rest else none

/-- Consume exactly the character `ch`. -/
def eatChar (ch : Char) : List Char → Option (List Char)
  | [] => none
  | c :: rest => if c = ch then some rest else none

/-- Boolean test that `pre` begins the list `s`. -/
def leadsWith : List Char → List Char → Bool
  | [], _ => true
  | _ :: _, [] => false
  | p :: ps, c :: cs => p = c && leadsWith ps cs

/-- Boolean substring test, the model of the Python `in` operator on strings. -/
def hasSub : List Char → List Char → Bool
  | hay, nd =>
    if leadsWith nd hay then true
    else
      match hay with
      | [] => false
      | _ :: t => hasSub t nd

/-- Lexicographic comparison of character lists by code point, the model of
Python string comparison. -/
def lexLe : List Char → List Char → Bool
  | [], _ => true
  | _ :: _, [] => false
  | a :: as, b :: bs => if a < b then true else if b < a then false else lexLe as bs

/-- Lexicographic order on strings. -/
def strLe (s t : String) : Bool := lexLe s.data t.data

/-- Model of Python `str.lower`, restricted to its ASCII behaviour. -/
def lowerStr (s : String) : String := String.mk (s.data.map Char.toLower)

/-- Characters before the first colon, modelling `s.split(":", 1)[0]`. -/
def takeUntilColon : List Char → List Char
  | [] => []
  | c :: rest => if c = ':' then [] else c :: takeUntilColon rest

/-- Test that `pre` begins the string `s`. -/
def strLeads (pre s : String) : Bool := leadsWith pre.data s.data

/-! ### Sanitizer (`_sanitize_text`, issues_aggregator.py lines 52-63)

The three regexes are translated as deterministic matchers returning the
number of characters the (leftmost, greedy) match consumes; the driver
`scanAux` reproduces `re.sub`: scan left to right, attempt a match only at a
word boundary (all three patterns begin with `\b\d`), emit the replacement
and resume after the match. -/

/-- Word-boundary test at the end of a match: the next character (if any)
must not be a word character.  All our matches end in a word character. -/
def bndAfter : List Char → Bool
  | [] => true
  | c :: _ => !isWordChar c

/-- Mandatory core of `_ISO_TS_RE`:
`\d{4}-\d{2}-\d{2}[T ]\d{2}:\d{2}:\d{2}`. -/
def tsCore (cs : List Char) : Option (List Char) :=
  (eatDigits 4 cs).bind fun r1 =>
  (eatChar '-' r1).bind fun r2 =>
  (eatDigits 2 r2).bind fun r3 =>
  (eatChar '-' r3).bind fun r4 =>
  (eatDigits 2 r4).bind fun r5 =>
  (match r5 with
   | c :: rest => if c = 'T' || c = ' ' then some rest else none
   | [] => none).bind fun r6 =>
  (eatDigits 2 r6).bind fun r7 =>
  (eatChar ':' r7).bind fun r8 =>
  (eatDigits 2 r8).bind fun r9 =>
  (eatChar ':' r9).bind fun r10 =>
  eatDigits 2 r10

/-- Optional fractional seconds `(?:\.\d+)?` (greedy, maximal digit run). -/
def tsFrac (cs : List Char) : Option (List Char) :=
  match cs with
  | c :: rest =>
    if c = '.' then
      let p := takeDigits rest
      if p.1 ≥ 1 then some p.2 else none
    else none
  | [] => none

/-- Optional timezone `(?:Z|[+-]\d{2}:\d{2})?`. -/
def tsTz (cs : List Char) : Option (List Char) :=
  match cs with
  | c :: rest =>
    if c = 'Z' then some rest
    else if c = '+' || c = '-' then
      (eatDigits 2 rest).bind fun r1 =>
      (eatChar ':' r1).bind fun r2 =>
      eatDigits 2 r2
    else none
  | [] => none

/-- Full `_ISO_TS_RE` matcher at the head of `cs` (the leading `\b` is checked
by the scan driver).  The candidate remainders are tried in the regex
backtracking order: fraction with timezone, fraction alone, timezone alone,
neither; the first whose continuation satisfies the trailing `\b` wins. -/
def matchTs (cs : List Char) : Option Nat :=
  match tsCore cs with
  | none => none
  | some r0 =>
    let cands : List (List Char) :=
      (match tsFrac r0 with
       | some r1 =>
         (match tsTz r1 with
          | some r2 => [r2]
          | none => []) ++ [r1]
       | none => []) ++
      (match tsTz r0 with
       | some r2 => [r2]
       | none => []) ++ [r0]
    match cands.find? (fun r => bndAfter r) with
    | some r => some (cs.length - r.length)
    | none => none

/-- The three `(?:\.\d{1,3})` groups of `_IP_RE`.  Each dot must be followed
by a maximal digit run of length 1 to 3 (a longer run admits no match, since
every shorter greedy choice leaves a digit where a dot or boundary is
required). -/
def ipGroups : Nat → List Char → Option (List Char)
  | 0, cs => some cs
  | k + 1, cs =>
    match cs with
    | c :: rest =>
      if c = '.' then
        let p := takeDigits rest
        if p.1 = 0 || p.1 > 3 then none else ipGroups k p.2
      else none
    | [] => none

/-- Full `_IP_RE` matcher: `\b\d{1,3}(?:\.\d{1,3}){3}\b`. -/
def matchIp (cs : List Char) : Option Nat :=
  let p0 := takeDigits cs
  if p0.1 = 0 || p0.1 > 3 then none
  else
    match ipGroups 3 p0.2 with
    | some r => if bndAfter r then some (cs.length - r.length) else none
    | none => none

/-- Full `_LONG_NUM_RE` matcher: `\b\d{4,}\b` (maximal digit run of length at
least 4 followed by a word boundary). -/
def matchNum (cs : List Char) : Option Nat :=
  let p := takeDigits cs
  if p.1 ≥ 4 && bndAfter p.2 then some p.1 else none

/-- Driver for `re.sub`: `prevW` records whether the previous character was a
word character (so a match may start only when it is `false`), and `skip`
counts characters still belonging to an emitted match. -/
def scanAux (tm : List Char → Option Nat) (repl : List Char) :
    List Char → Bool → Nat → List Char
  | [], _, _ => []
  | c :: rest, _, skip + 1 => scanAux tm repl rest (isWordChar c) skip
  | c :: rest, prevW, 0 =>
    if prevW then c :: scanAux tm repl rest (isWordChar c) 0
    else
      match tm (c :: rest) with
      | some n => repl ++ scanAux tm repl rest (isWordChar c) (n - 1)
      | none => c :: scanAux tm repl rest (isWordChar c) 0

/-- One full substitution pass over a character list. -/
def runSub (tm : List Char → Option Nat) (repl : String) (s : List Char) : List Char :=
  scanAux tm repl.data s false 0

/-- Model of `_sanitize_text`: substitute ISO-8601 timestamps, dotted-quad
IPs, then long integers, in the order the source applies them. -/
def _sanitize_text (s : String) : String :=
  String.mk (runSub matchNum "<num>" (runSub matchIp "<ip>" (runSub matchTs "<ts>" s.data)))

/-! ### Severity keyword rules (environments.py lines 175-179, incidents.py lines 32-36) -/

/-- Keyword tuple of `_severity_from_medoid` in `environments.py`
(line 177): it does NOT contain `"timeout"`. -/
def envSevKeywords : List String :=
  ["failed", "error", "critical", "i/o error", "out of memory", "servfail"]

/-- Keyword tuple of `_severity_from_medoid` in `incidents.py` (line 34):
it additionally contains `"timeout"`. -/
def incidentSevKeywords : List String :=
  ["failed", "error", "critical", "i/o error", "out of memory", "servfail", "timeout"]

/-- Model of `_severity_from_medoid` in `environments.py` (lines 175-179):
`any(x in med_l for x in keywords)` over the lowercased medoid. -/
def _severity_from_medoid_env (medoid : String) : String :=
  if envSevKeywords.any (fun k => hasSub (lowerStr medoid).data k.data)
  then "critical" else "warning"

/-- Model of `_severity_from_medoid` in `incidents.py` (lines 32-36). -/
def _severity_from_medoid_incidents (medoid : String) : String :=
  if incidentSevKeywords.any (fun k => hasSub (lowerStr medoid).data k.data)
  then "critical" else "warning"

/-! ### Online clusterer (`app/services/online_clustering.py`)

`nearest_prototype` (in `app/services/prototype_router.py`, outside the
embedded sources) and the Chroma collection calls are external: their
outcomes are passed in explicitly.  An `Except.error` input models the call
raising; the Boolean `persistOk` models whether the
`get_or_create_collection` / `collection.add` block completes without an
exception (on exception the code logs and falls through).  Redis-free
metrics recording (`_record_online_metrics`) is fire-and-forget and touches
no state observed by any claim, so it is not modelled. -/

/-- Model of `_suffix_for_os`. -/
def _suffix_for_os (osName : String) : String :=
  let key := lowerStr osName.trim
  if key = "mac" ∨ key = "macos" ∨ key = "osx" then "macos"
  else if key = "linux" then "linux"
  else if key = "windows" ∨ key = "win" then "windows"
  else if key = "" then "unknown" else key

/-- Settings fields the embedded code reads (`app.core.config` is outside
the embedded sources; the claims treat these as parameters). -/
structure Settings where
  ONLINE_CLUSTER_DISTANCE_THRESHOLD : ℚ
  CHROMA_PROTO_COLLECTION_PREFIX : String
  CLUSTERS_CANDIDATES_STREAM : String
  ALERTS_STREAM : String
deriving DecidableEq

/-- Model of `_proto_collection_name`. -/
def _proto_collection_name (st : Settings) (osName : String) : String :=
  st.CHROMA_PROTO_COLLECTION_PREFIX ++ _suffix_for_os osName

/-- One hit returned by `nearest_prototype(os, text, k=1)`.  `id` is already
coerced as in `str(nearest[0].get("id") or "")` (missing id gives `""`);
`distance = none` models a missing or non-numeric `distance` value (the
`isinstance(dist, (int, float))` guard). -/
structure ProtoHit where
  id : String
  distance : Option ℚ
deriving DecidableEq

/-- Metadata written for a freshly created prototype
(online_clustering.py lines 111-118). -/
structure ProtoSeedMeta where
  os : String
  label : String
  rationale : String
  size : Nat
  exemplar_count : Nat
  created_by : String
deriving DecidableEq

/-- Vector-store write performed by the online clusterer. -/
inductive OnlineEffect
  | addProto (collection : String) (id : String) (document : String) (meta : ProtoSeedMeta)
deriving DecidableEq

/-- Result of `assign_or_create_cluster`: the returned cluster id plus the
prototype-collection writes performed. -/
structure AssignOutcome where
  cluster_id : String
  effects : List OnlineEffect
deriving DecidableEq

/-- Creation arm of `assign_or_create_cluster` (lines 84-144): generate
`cluster_<hex12>`, attempt to persist the prototype (failure is logged and
swallowed), and return the generated id. -/
def _create_new_prototype (st : Settings) (osName : String) (text : String)
    (freshHex : String) (persistOk : Bool) : AssignOutcome :=
  let cid := "cluster_" ++ freshHex
  let effects :=
    if persistOk then
      [OnlineEffect.addProto (_proto_collection_name st osName) cid text
        ⟨osName, "unknown", "online", 1, 0, "online"⟩]
    else []
  ⟨cid, effects⟩

/-- Model of `assign_or_create_cluster` (lines 52-144).  `nearestRes` is the
outcome of the `nearest_prototype` call (an exception is treated as an empty
result); `freshHex` stands for `uuid.uuid4().hex[:12]`. -/
def assign_or_create_cluster (st : Settings) (osName : String) (text : String)
    (threshold : Option ℚ) (nearestRes : Except Unit (List ProtoHit))
    (freshHex : String) (persistOk : Bool) : AssignOutcome :=
  let thresh := threshold.getD st.ONLINE_CLUSTER_DISTANCE_THRESHOLD
  let nearest : List ProtoHit :=
    match nearestRes with
    | .ok l => l
    | .error _ => []
  match nearest with
  | hit :: _ =>
    match hit.distance with
    | some d =>
      if d ≤ thresh ∧ hit.id ≠ "" then ⟨hit.id, []⟩
      else _create_new_prototype st osName text freshHex persistOk
    | none => _create_new_prototype st osName text freshHex persistOk
  | [] => _create_new_prototype st osName text freshHex persistOk

/-! ### Cluster-candidate counter (issues_aggregator.py lines 305-344)

Per `(os, cluster_id)` the aggregator increments `cluster:count:...` and
decides whether to publish a ClusterCandidate.  The state below carries the
counter, the rate-limiter timestamp `cluster:last_candidate_ts:...`
(`0` when the key is absent; its 1-hour expiry is not modelled — the
theorems below fix `min_interval = 0`, where expiry cannot change the gate),
and the number of candidates published so far.  Timestamps are rationals
standing for `time.time()` values. -/

structure CandState where
  count : Nat
  lastTs : ℚ
  published : Nat
deriving DecidableEq

/-- Processing of one log of the cluster: `INCR`, threshold test, republish
test with the min-interval gate (which also refreshes the rate-limiter
timestamp). -/
def candStep (minCount repubEvery : Nat) (minInterval : ℚ) (now : ℚ)
    (s : CandState) : CandState :=
  let n := s.count + 1
  if n = minCount then
    ⟨n, s.lastTs, s.published + 1⟩
  else if 0 < repubEvery ∧ minCount < n ∧ n % repubEvery = 0 ∧ minInterval ≤ now - s.lastTs then
    ⟨n, now, s.published + 1⟩
  else
    ⟨n, s.lastTs, s.published⟩

/-- Iterate `candStep` over the arrival times of the cluster's logs. -/
def candRun (minCount repubEvery : Nat) (minInterval : ℚ) :
    List ℚ → CandState → CandState
  | [], s => s
  | t :: ts, s => candRun minCount repubEvery minInterval ts (candStep minCount repubEvery minInterval t s)

/-! ### Cluster enricher (`app/streams/cluster_enricher.py` lines 134-302)

Per candidate message the enricher fetches the prototype, queries template
neighbours, generates HYDE queries, retrieves evidence logs, calls the LLM,
publishes the alert and updates the prototype metadata, acking the candidate
in a `finally` block.  External calls are again passed in as outcomes; the
Redis commands the code issues are collected as a `KVEffect` trace (the
effect vocabulary also includes the hash-write commands `HSET`/`EXPIRE` so
their absence from every trace is expressible).  The metrics block
(lines 238-253) is wrapped in its own `try/except` and writes no state any
claim observes, so it is not modelled; the same holds for the `app.kaboom`
log lines. -/

/-- One entry of the candidate's `sample_logs` JSON list.  Missing or falsy
values are modelled as `""` (the code reads every field with
`s.get(...) or default`). -/
structure SampleLog where
  id : String
  templated : String
  raw : String
  source : String
  os : String
  env_id : String
deriving DecidableEq

/-- One row of the `logs_<os>` collection `get` result (id, document and the
metadata fields the enricher reads).  `osMeta = none` models a metadata dict
without an `os` key, in which case the code substitutes the candidate's os
(`.get("os", os_name)`); `raw` and `source` default to `""`. -/
structure LogRow where
  id : String
  doc : String
  raw : String
  source : String
  osMeta : Option String
  env_id : String
deriving DecidableEq

/-- One entry of the alert's `evidence_logs` list. -/
structure Evidence where
  id : String
  templated : String
  raw : String
  source : String
  os : String
  env_id : String
deriving DecidableEq

/-- Fields of the dict returned by `classify_cluster` that the enricher
reads.  `none` models a missing key (for `confidence` and `recommendation`
also a falsy value, since the code reads them through `or`-style guards). -/
structure ClassifyRes where
  failure_type : Option String
  confidence : Option String
  recommendation : Option String
deriving DecidableEq

/-- Prototype metadata fields the enricher reads and rewrites. -/
structure ProtoMeta where
  label : Option String
  rationale : Option String
  solution : Option String
deriving DecidableEq

/-- Alert payload published to the `alerts` stream (lines 256-266).  The
`result` JSON dump is modelled as the classify result itself. -/
structure AlertPayload where
  type : String
  os : String
  cluster_id : String
  failure_type : String
  confidence : String
  result : ClassifyRes
  env_id : String
  env_ids : List String
  evidence_logs : List Evidence
deriving DecidableEq

/-- Redis commands issued while processing one candidate. -/
inductive KVEffect
  | xadd (stream : String) (payload : AlertPayload)
  | protoUpdate (collection : String) (id : String) (meta : ProtoMeta)
  | hsetAlert (key : String) (payload : AlertPayload)
  | expire (key : String) (seconds : Nat)
  | ack (stream : String) (group : String) (msgId : String)
deriving DecidableEq

/-- Whether an effect writes or expires an `alert:<id>` hash. -/
def isHashWrite : KVEffect → Bool
  | .hsetAlert _ _ => true
  | .expire _ _ => true
  | _ => false

/-- Outcome of the neighbour query (lines 154-174): success, an error whose
text marks a corrupted HNSW index (swallowed), or any other error
(re-raised). -/
inductive NeighborOutcome
  | ok
  | corruptIndexErr
  | fatalErr
deriving DecidableEq

/-- One message of the `clusters:candidates` stream, with its JSON fields
already parsed: `none` models a missing field or one whose JSON fails to
parse (both collapse to an empty list in the code). -/
structure CandidateMsg where
  msgId : String
  os : String
  cluster_id : String
  env_ids : Option (List String)
  sample_logs : Option (List SampleLog)
deriving DecidableEq

/-- Decidable equality for `Except`, needed to evaluate concrete oracle
values in witnesses. -/
instance instDecEqExcept {ε α : Type} [DecidableEq ε] [DecidableEq α] :
    DecidableEq (Except ε α) := fun a b =>
  match a, b with
  | .error e, .error f =>
    if h : e = f then .isTrue (by rw [h]) else .isFalse (fun hh => h (Except.error.inj hh))
  | .error _, .ok _ => .isFalse (fun hh => Except.noConfusion hh)
  | .ok _, .error _ => .isFalse (fun hh => Except.noConfusion hh)
  | .ok x, .ok y =>
    if h : x = y then .isTrue (by rw [h]) else .isFalse (fun hh => h (Except.ok.inj hh))

/-- Outcomes of the external calls made while processing one candidate. -/
structure EnrichOracle where
  proto : Except Unit (Option (List ℚ) × String × ProtoMeta)
  neighbors : NeighborOutcome
  hypothesisOk : Bool
  logsGet : Except Unit (List LogRow)
  classify : Except Unit ClassifyRes
  xaddOk : Bool
  protoUpdateOk : Bool
deriving DecidableEq

/-- Insert into an ordered-duplicate-free list, the deterministic model of
`set.add`. -/
def insertUniq (l : List String) (x : String) : List String :=
  if x ∈ l then l else l ++ [x]

/-- Evidence rows and distinct env ids collected from the `logs_<os>`
lookup (lines 188-203). -/
def gatherFromRows (osName : String) (rows : List LogRow) :
    List Evidence × List String :=
  rows.foldl
    (fun acc row =>
      (acc.1 ++ [⟨row.id, row.doc, row.raw, row.source, row.osMeta.getD osName, row.env_id⟩],
       if row.env_id ≠ "" then insertUniq acc.2 row.env_id else acc.2))
    ([], [])

/-- Evidence rows and distinct env ids collected from the candidate's
`sample_logs` fallback (lines 206-225); the code takes the first 10. -/
def gatherFromSamples (osName : String) (samples : List SampleLog) :
    List Evidence × List String :=
  (samples.take 10).foldl
    (fun acc s =>
      (acc.1 ++ [⟨s.id, s.templated, s.raw, s.source,
                  if s.os = "" then osName else s.os, s.env_id⟩],
       if s.env_id ≠ "" then insertUniq acc.2 s.env_id else acc.2))
    ([], [])

/-- Distinct non-empty env ids of the candidate's `env_ids` field
(lines 226-233), used when evidence gathering produced none. -/
def envIdsFallback (raw : List String) : List String :=
  raw.foldl (fun acc e => if e ≠ "" then insertUniq acc e else acc) []

/-- Evidence rows and distinct env ids for one candidate (lines 181-233):
the `logs_<os>` lookup (an exception yielding `{}`), the `sample_logs`
fallback when no evidence was retrieved, and the candidate `env_ids`
fallback when no env id was collected. -/
def gatherEvidence (osName : String) (msg : CandidateMsg) (o : EnrichOracle) :
    List Evidence × List String :=
  let rows :=
    match o.logsGet with
    | .ok r => r
    | .error _ => []
  let fromRows := gatherFromRows osName rows
  let gathered :=
    if fromRows.1.isEmpty then gatherFromSamples osName (msg.sample_logs.getD [])
    else fromRows
  let envs :=
    if gathered.2.isEmpty then envIdsFallback (msg.env_ids.getD [])
    else gathered.2
  (gathered.1, envs)

/-- Model of one iteration of the inner message loop of
`run_cluster_enricher` (lines 135-302): the trace of Redis commands issued,
in order.  Every branch — including every exception path — ends with the
`XACK` issued in the `finally` block. -/
def processCandidate (st : Settings) (group : String) (msg : CandidateMsg)
    (o : EnrichOracle) : List KVEffect :=
  let ackE := KVEffect.ack st.CLUSTERS_CANDIDATES_STREAM group msg.msgId
  let osName := if msg.os = "" then "unknown" else msg.os
  match o.proto with
  | .error _ => [ackE]
  | .ok (centroid, _medoidDoc, protoMeta) =>
    let centroidNonempty : Bool :=
      match centroid with
      | some v => !v.isEmpty
      | none => false
    if centroidNonempty = true ∧ o.neighbors = NeighborOutcome.fatalErr then [ackE]
    else if o.hypothesisOk = false then [ackE]
    else
      let gathered := gatherEvidence osName msg o
      match o.classify with
      | .error _ => [ackE]
      | .ok res =>
        let payload : AlertPayload :=
          { type := "cluster"
            os := osName
            cluster_id := msg.cluster_id
            failure_type := res.failure_type.getD ""
            confidence := res.confidence.getD ""
            result := res
            env_id :=
              match gathered.2 with
              | [e] => e
              | _ => ""
            env_ids := gathered.2
            evidence_logs := gathered.1 }
        let xaddE := KVEffect.xadd st.ALERTS_STREAM payload
        if o.xaddOk = false then [xaddE, ackE]
        else
          let newMeta : ProtoMeta :=
            { label := some (res.failure_type.getD (protoMeta.label.getD "unknown"))
              rationale := some "llm_cluster"
              solution :=
                match res.recommendation with
                | some r => some r
                | none => protoMeta.solution }
          let updE :=
            if o.protoUpdateOk then
              [KVEffect.protoUpdate (_proto_collection_name st osName) msg.cluster_id newMeta]
            else []
          xaddE :: updE ++ [ackE]

/-! ### Generic assoc-list and sorting helpers -/

/-- First-match association lookup, the model of `dict`/hash access. -/
def lookupAssoc {β : Type} : List (String × β) → String → Option β
  | [], _ => none
  | (k, v) :: rest, key => if k = key then some v else lookupAssoc rest key

/-- Set or add one field of a field list, the model of `HSET`. -/
def setField : List (String × String) → String → String → List (String × String)
  | [], k, v => [(k, v)]
  | (k₁, v₁) :: rest, k, v =>
    if k₁ = k then (k, v) :: rest else (k₁, v₁) :: setField rest k v

/-- Set one field of the hash stored at `key` (a no-op on other hashes). -/
def setHashField : List (String × List (String × String)) → String → String → String →
    List (String × List (String × String))
  | [], _, _, _ => []
  | (k, fl) :: rest, key, field, value =>
    (if k = key then (k, setField fl field value) else (k, fl)) ::
      setHashField rest key field value

/-- Insertion into a list ordered by `le`. -/
def insertBy {α : Type} (le : α → α → Bool) (a : α) : List α → List α
  | [] => [a]
  | b :: l => if le a b then a :: b :: l else b :: insertBy le a l

/-- Insertion sort by `le`, the model of Python's `sort`/`sorted` (the claims
only concern the ordering of the result, not stability). -/
def sortBy {α : Type} (le : α → α → Bool) : List α → List α
  | [] => []
  | a :: l => insertBy le a (sortBy le l)

/-! ### Alert feedback endpoint (`alerts.py` lines 184-202) -/

/-- The two feedback kinds; FastAPI rejects anything not matching
`^(correct|incorrect)$` before the handler runs. -/
inductive FeedbackKind
  | correct
  | incorrect
deriving DecidableEq

/-- String form stored in the hash's `feedback` field. -/
def fbStr : FeedbackKind → String
  | .correct => "correct"
  | .incorrect => "incorrect"

/-- Redis state the alert endpoints read and write: the `alert:<id>` hashes
and the two feedback sets (sets are modelled as duplicate-free lists). -/
structure AlertsStoreState where
  hashes : List (String × List (String × String))
  correctSet : List String
  incorrectSet : List String
deriving DecidableEq

/-- Model of `SREM`. -/
def sremList (s : List String) (x : String) : List String :=
  s.filter (fun y => decide (y ≠ x))

/-- Model of `add_feedback`: 404 when the hash is absent, otherwise one
atomic pipeline that sets the `feedback` field, adds the id to the matching
set and removes it from the other set. -/
def add_feedback (st : AlertsStoreState) (entryId : String) (fb : FeedbackKind) :
    Except Nat AlertsStoreState :=
  let key := "alert:" ++ entryId
  match lookupAssoc st.hashes key with
  | none => .error 404
  | some _ =>
    .ok
      { hashes := setHashField st.hashes key "feedback" (fbStr fb)
        correctSet :=
          match fb with
          | .correct => insertUniq st.correctSet entryId
          | .incorrect => sremList st.correctSet entryId
        incorrectSet :=
          match fb with
          | .correct => sremList st.incorrectSet entryId
          | .incorrect => insertUniq st.incorrectSet entryId }

/-! ### Alert list endpoint (`alerts.py` lines 54-162)

Stream entries and hashes carry the same field schema; JSON-encoded fields
(`result`, `env_ids`, `evidence_logs`) are modelled by their defensively
parsed values, with the two `result` sub-fields the endpoint reads spelled
out.  A missing or falsy plain field is `""`. -/

/-- Fields of an alert as stored in the `alerts` stream or an `alert:<id>`
hash. -/
structure StoredAlert where
  type : String
  os : String
  issue_key : String
  summary : String
  solution : String
  result_summary : String
  result_recommendation : String
  env_id : String
  cluster_id : String
  env_ids : List String
  evidence_logs : List Evidence
deriving DecidableEq

/-- The env-id projection used by `list_alerts`
(`data.get("env_id") or (env_ids[0] if len(env_ids) == 1 else None)`). -/
def _display_env_id (stored : String) (envIds : List String) : Option String :=
  if stored ≠ "" then some stored
  else
    match envIds with
    | [e] => some e
    | _ => none

/-- One element of the `list_alerts` response. -/
structure AlertOut where
  id : String
  type : String
  os : String
  issue_key : String
  summary : String
  solution : String
  persisted : Bool
  env_id : Option String
  env_ids : List String
  logs : List Evidence
  cluster_id : String
deriving DecidableEq

/-- Response row built from a stream entry or its hash (lines 93-125). -/
def mkAlertOut (entryId : String) (persistedIds : List String) (d : StoredAlert) : AlertOut :=
  { id := entryId
    type := d.type
    os := d.os
    issue_key := d.issue_key
    summary := if d.summary ≠ "" then d.summary else d.result_summary
    solution := if d.solution ≠ "" then d.solution else d.result_recommendation
    persisted := decide (entryId ∈ persistedIds)
    env_id := _display_env_id d.env_id d.env_ids
    env_ids := d.env_ids
    logs := d.evidence_logs
    cluster_id := d.cluster_id }

/-- Response row built from an old persisted hash (lines 144-155); this
branch emits no `summary`/`solution` keys and marks `persisted` true. -/
def mkPersistedOut (entryId : String) (d : StoredAlert) : AlertOut :=
  { id := entryId
    type := d.type
    os := d.os
    issue_key := d.issue_key
    summary := ""
    solution := ""
    persisted := true
    env_id := _display_env_id d.env_id d.env_ids
    env_ids := d.env_ids
    logs := d.evidence_logs
    cluster_id := d.cluster_id }

/-- Model of `list_alerts`.  `streamEntries` is the `XREVRANGE` reply (at
most `limit` entries, any order — the code sorts at the end), `hashes` maps
full `alert:<id>` keys to existing hashes (an absent key models the falsy
`hgetall` reply), `persistedIds` is the persisted set. -/
def list_alerts (streamEntries : List (String × StoredAlert))
    (hashes : List (String × StoredAlert)) (persistedIds : List String)
    (lim : Nat) (envFilter : Option String) : List AlertOut :=
  let fromStream := streamEntries.map (fun e =>
    match lookupAssoc hashes ("alert:" ++ e.1) with
    | some h => mkAlertOut e.1 persistedIds h
    | none => mkAlertOut e.1 persistedIds e.2)
  let seen := streamEntries.map Prod.fst
  let rem := lim - fromStream.length
  let extra :=
    if 0 < rem ∧ persistedIds ≠ [] then
      let candidates :=
        sortBy (fun a b => strLe b a) (persistedIds.filter (fun p => decide (p ∉ seen)))
      (candidates.take rem).filterMap (fun pid =>
        (lookupAssoc hashes ("alert:" ++ pid)).map (fun d => mkPersistedOut pid d))
    else []
  let out := sortBy (fun a b => strLe b.id a.id) (fromStream ++ extra)
  let filtered :=
    match envFilter with
    | some e =>
      if e ≠ "" then out.filter (fun a : AlertOut => decide (e ∈ a.env_ids ∨ a.env_id = some e))
      else out
    | none => out
  filtered.take lim

/-! ### JSON payload normalization (issues_aggregator.py lines 79-164)

The function receives the already-parsed JSON object (its `line` argument
goes through `_try_parse_json_line`, whose textual JSON parsing is outside
the claims; `none` models a line that is not a JSON object).  Values are
modelled as strings, with `""` standing for a missing key or a falsy value —
faithful for the string payloads the integration sources emit, and for every
`or`-chain and `in (None, "", "None")` test the code performs. -/

/-- First-match association access with `""` for a missing key, modelling
`obj.get(k)` under the string-value restriction. -/
def getStr : List (String × String) → String → String
  | [], _ => ""
  | (k, v) :: rest, key => if k = key then v else getStr rest key

/-- Model of an `or`-chain `obj.get(k1) or obj.get(k2) or ... or ""`. -/
def getFirst (obj : List (String × String)) : List String → String
  | [] => ""
  | k :: ks =>
    let v := getStr obj k
    if v ≠ "" then v else getFirst obj ks

/-- The `stable_keys` list of the generic-connector branch (lines 104-128). -/
def stableKeys : List String :=
  ["type", "status", "Status", "severity", "Severity", "metric", "Metric",
   "test", "test_name", "TestName", "name", "Name", "service", "Service",
   "component", "Component", "ComputerName", "message", "Message",
   "error", "Error", "summary", "Summary"]

/-- The `bad_keys` pruned before the deterministic dump (lines 137-149). -/
def badKeys : List String :=
  ["TimeGenerated", "time", "ts", "timestamp", "ip", "IP", "Id", "id",
   "uuid", "request_id", "ray_id"]

/-- Model of `json.dumps(pruned, sort_keys=True, ensure_ascii=False)` for
string-valued objects (escaping of special characters inside values is not
modelled; no claim depends on the dump text). -/
def dumpPruned (obj : List (String × String)) : String :=
  let pruned := obj.filter (fun kv => decide (kv.1 ∉ badKeys))
  let sorted := sortBy (fun a b => strLe a.1 b.1) pruned
  "\x7b" ++
    String.intercalate ", " (sorted.map (fun kv => "\"" ++ kv.1 ++ "\": \"" ++ kv.2 ++ "\"")) ++
    "\x7d"

/-- The `parts` list before the pruned-dump fallback: the SCOM branch
(lines 95-101) or the stable-key branch (lines 103-133).  `sLow` is the
lowercased source. -/
def _norm_parts (sLow : String) (obj : List (String × String)) (host : String) :
    List String :=
  if strLeads "scom:" sLow then
    let channel := getStr obj "Channel"
    let level := getFirst obj ["LevelDisplayName", "level"]
    let msg0 := getFirst obj ["Message", "message"]
    let msg := if msg0 = "None" then "" else msg0
    ["scom", channel, level, host, msg].filter (fun x => decide (x ≠ ""))
  else
    stableKeys.filterMap (fun k =>
      let v := getStr obj k
      if v = "" ∨ v = "None" then none else some (k ++ "=" ++ v))

/-- Parsed fields produced for a normalized integration payload;
`env_id = ""` models the absent key. -/
structure NormParsed where
  component : String
  pid : String
  content : String
  env_id : String
deriving DecidableEq

/-- Modelled from the spec: `render_template(component, pid?, content) →
templated` — `app/parsers/templating.py` is not among the embedded sources.
The spec states only that it is a stable (deterministic) function of its
inputs producing a low-cardinality string; it is modelled as a canonical
field concatenation, and no claim depends on its exact shape. -/
def render_templated_line (component : String) (pid : Option String)
    (content : String) : String :=
  component ++ "|" ++ pid.getD "" ++ "|" ++ content

/-- Integration-source test of line 87 on the lowercased source. -/
def _integration_source (sLow : String) : Bool :=
  strLeads "scom:" sLow || strLeads "squaredup:" sLow ||
  strLeads "catalyst:" sLow || strLeads "thousandeyes:" sLow

/-- Model of `_normalize_json_for_clustering`. -/
def _normalize_json_for_clustering (source : String)
    (obj : Option (List (String × String))) : Option (String × NormParsed) :=
  match obj with
  | none => none
  | some o =>
    let s := lowerStr source
    if _integration_source s = false then none
    else
      let env_id := getFirst o ["EnvironmentId", "env_id", "environment_id"]
      let host := getFirst o ["ComputerName", "Host", "host", "component", "Component"]
      let parts0 := _norm_parts s o host
      let parts := if parts0 = [] then [dumpPruned o] else parts0
      let content :=
        _sanitize_text (String.intercalate " " (parts.filter (fun p => decide (p ≠ ""))))
      let component :=
        if host ≠ "" then host
        else if s ≠ "" then String.mk (takeUntilColon s.data) else "unknown"
      some (render_templated_line component none content, ⟨component, "", content, env_id⟩)

/-! ### Remaining definitions used by the theorems -/

/-- Field read of one of the alert hashes. -/
def getHashField (hashes : List (String × List (String × String)))
    (key field : String) : Option String :=
  match lookupAssoc hashes key with
  | none => none
  | some fields => lookupAssoc fields field

/-- Whether an effect is an `XADD` to the given stream. -/
def isXaddTo (stream : String) : KVEffect → Bool
  | .xadd s _ => s = stream
  | _ => false

/-- Number of counter values in `(k, k + len]` at which the aggregator
publishes a candidate when the min-interval gate is open: the threshold
crossing `n = minCount` plus, when `repubEvery > 0`, every multiple of
`repubEvery` above `minCount`. -/
def countSteps (minCount repubEvery k : Nat) : Nat → Nat
  | 0 => 0
  | len + 1 =>
    (if k + 1 = minCount ∨ (0 < repubEvery ∧ minCount < k + 1 ∧ (k + 1) % repubEvery = 0)
     then 1 else 0)
    + countSteps minCount repubEvery (k + 1) len

/-- Concrete settings used by closed witnesses. -/
def sampleSettings : Settings :=
  { ONLINE_CLUSTER_DISTANCE_THRESHOLD := (1 : ℚ) / 4
    CHROMA_PROTO_COLLECTION_PREFIX := "prototypes_"
    CLUSTERS_CANDIDATES_STREAM := "clusters:candidates"
    ALERTS_STREAM := "alerts" }

/-- Concrete candidate message used by closed witnesses. -/
def sampleMsg : CandidateMsg :=
  { msgId := "1700000000000-0"
    os := "linux"
    cluster_id := "cluster_ab12cd34ef56"
    env_ids := some ["env-001"]
    sample_logs := some [] }

/-- Concrete oracle (all external calls succeed) used by closed witnesses. -/
def sampleOracle : EnrichOracle :=
  { proto := .ok (some [(1 : ℚ)], "kernel panic", ⟨some "unknown", some "online", none⟩)
    neighbors := .ok
    hypothesisOk := true
    logsGet := .ok [⟨"log1", "doc1", "raw1", "linux.log", some "linux", "env-001"⟩]
    classify := .ok ⟨some "disk_failure", some "0.9", some "replace the disk"⟩
    xaddOk := true
    protoUpdateOk := true }

/-- A 181-character string with a double space and no digits. -/
def longText : String :=
  String.mk ('a' :: ' ' :: ' ' :: 'b' :: List.replicate 177 'c')

/-! ### Helper lemmas -/

/-- Correctness of the Boolean starts-with test. -/
theorem leadsWith_iff (nd : List Char) : ∀ hay : List Char,
    leadsWith nd hay = true ↔ ∃ r, hay = nd ++ r := by
  induction nd with
  | nil => intro hay; simp [leadsWith]
  | cons p ps ih =>
    intro hay
    cases hay with
    | nil => simp [leadsWith]
    | cons c cs =>
      simp only [leadsWith, Bool.and_eq_true, decide_eq_true_eq, ih, List.cons_append,
        List.cons.injEq]
      constructor
      · rintro ⟨rfl, r, rfl⟩
        exact ⟨r, rfl, rfl⟩
      · rintro ⟨r, rfl, rfl⟩
        exact ⟨rfl, r, rfl⟩

/-- Correctness of the Boolean substring test. -/
theorem hasSub_iff (nd : List Char) : ∀ hay : List Char,
    hasSub hay nd = true ↔ ∃ l r, hay = l ++ nd ++ r := by
  intro hay
  induction hay with
  | nil =>
    rw [hasSub]
    by_cases h : leadsWith nd [] = true
    · obtain ⟨r, hr⟩ := (leadsWith_iff nd []).mp h
      rcases List.append_eq_nil.mp (Eq.symm hr) with ⟨hnd, hrr⟩
      subst hnd
      rw [if_pos h]
      exact ⟨fun _ => ⟨[], [], rfl⟩, fun _ => rfl⟩
    · rw [if_neg h]
      constructor
      · intro hh; cases hh
      · rintro ⟨l, r, hlr⟩
        exfalso
        rcases List.append_eq_nil.mp (Eq.symm hlr) with ⟨hl, hrest⟩
        rcases List.append_eq_nil.mp hl with ⟨hl₂, hnd⟩
        subst hnd
        exact h rfl
  | cons c t ih =>
    rw [hasSub]
    by_cases h : leadsWith nd (c :: t) = true
    · rw [if_pos h]
      obtain ⟨r, hr⟩ := (leadsWith_iff nd (c :: t)).mp h
      exact ⟨fun _ => ⟨[], r, by simp [hr]⟩, fun _ => rfl⟩
    · rw [if_neg h]
      rw [ih]
      constructor
      · rintro ⟨l, r, rfl⟩
        exact ⟨c :: l, r, rfl⟩
      · rintro ⟨l, r, hlr⟩
        cases l with
        | nil =>
          exact absurd ((leadsWith_iff nd (c :: t)).mpr ⟨r, by simpa using hlr⟩) h
        | cons x l₂ =>
          simp only [List.cons_append] at hlr
          injection hlr with h1 h2
          exact ⟨l₂, r, h2⟩

/-- A generated cluster id is never the empty string. -/
theorem cluster_prefixed_ne_empty (h : String) : ("cluster_" ++ h) ≠ "" := by
  intro hh
  have hlen := congrArg String.length hh
  rw [String.length_append] at hlen
  have h8 : ("cluster_" : String).length = 8 := by decide
  have h0 : ("" : String).length = 0 := by decide
  omega

/-- Membership in `insertUniq`. -/
theorem mem_insertUniq (l : List String) (x y : String) :
    y ∈ insertUniq l x ↔ y = x ∨ y ∈ l := by
  unfold insertUniq
  by_cases h : x ∈ l
  · simp only [if_pos h]
    constructor
    · exact Or.inr
    · rintro (rfl | hy)
      · exact h
      · exact hy
  · simp [if_neg h, or_comm]

/-- `insertUniq` preserves duplicate-freedom. -/
theorem nodup_insertUniq (l : List String) (x : String) (h : l.Nodup) :
    (insertUniq l x).Nodup := by
  unfold insertUniq
  by_cases hx : x ∈ l
  · simpa [if_pos hx] using h
  · simp only [if_neg hx]
    simpa [List.nodup_append] using ⟨h, hx⟩

/-- `insertUniq` with a non-empty element keeps `""` out. -/
theorem empty_not_mem_insertUniq (l : List String) (x : String)
    (h : "" ∉ l) (hx : x ≠ "") : "" ∉ insertUniq l x := by
  rw [mem_insertUniq]
  rintro (he | he)
  · exact hx he.symm
  · exact h he

/-- Membership in `sremList`. -/
theorem mem_sremList (l : List String) (x y : String) :
    y ∈ sremList l x ↔ y ∈ l ∧ y ≠ x := by
  simp [sremList]

/-! ### Claims C1 and C6: online clusterer -/

/-- C1: if the nearest-prototype lookup returns an existing prototype (a hit
with a non-empty id and a numeric reported distance `d`) and `d ≤ τ` (the
threshold argument, defaulting to `ONLINE_CLUSTER_DISTANCE_THRESHOLD`), then
`assign_or_create_cluster` returns that prototype's id and performs no write
on the prototype collection. -/
theorem assign_within_threshold_returns_existing_and_creates_nothing
    (st : Settings) (osName text : String) (threshold : Option ℚ)
    (hit : ProtoHit) (tl : List ProtoHit) (freshHex : String) (persistOk : Bool)
    (d : ℚ) (hdist : hit.distance = some d)
    (hle : d ≤ threshold.getD st.ONLINE_CLUSTER_DISTANCE_THRESHOLD)
    (hid : hit.id ≠ "") :
    assign_or_create_cluster st osName text threshold (.ok (hit :: tl)) freshHex persistOk =
      ⟨hit.id, []⟩ := by
  unfold assign_or_create_cluster
  dsimp only
  rw [hdist]
  dsimp only
  rw [if_pos ⟨hle, hid⟩]

/-- Witness for C1 at a concrete hit within the default threshold. -/
theorem assign_within_threshold_witness :
    assign_or_create_cluster sampleSettings "linux" "tmpl text" none
      (.ok [⟨"cluster_ab12cd34ef56", some ((1 : ℚ) / 8)⟩]) "0011223344ff" true =
      ⟨"cluster_ab12cd34ef56", []⟩ :=
  assign_within_threshold_returns_existing_and_creates_nothing
    sampleSettings "linux" "tmpl text" none
    ⟨"cluster_ab12cd34ef56", some ((1 : ℚ) / 8)⟩ [] "0011223344ff" true
    ((1 : ℚ) / 8) rfl (by norm_num [sampleSettings]) (by decide)

/-- C6: `assign_or_create_cluster` is total over lookup and persistence
outcomes: the returned id is always non-empty; a raised lookup is treated as
an empty result and yields the freshly generated `cluster_<hex12>` id; and
the returned id does not depend on whether persisting the new prototype
succeeds. -/
theorem assign_or_create_error_resilience
    (st : Settings) (osName text : String) (threshold : Option ℚ)
    (nearestRes : Except Unit (List ProtoHit)) (freshHex : String) (persistOk : Bool) :
    (assign_or_create_cluster st osName text threshold nearestRes freshHex persistOk).cluster_id ≠ ""
    ∧ (∀ u : Unit, nearestRes = .error u →
        (assign_or_create_cluster st osName text threshold nearestRes freshHex persistOk).cluster_id
          = "cluster_" ++ freshHex)
    ∧ (∀ persistOk₂ : Bool,
        (assign_or_create_cluster st osName text threshold nearestRes freshHex persistOk).cluster_id =
        (assign_or_create_cluster st osName text threshold nearestRes freshHex persistOk₂).cluster_id) := by
  refine ⟨?_, ?_, ?_⟩
  · unfold assign_or_create_cluster _create_new_prototype
    cases nearestRes with
    | error u => exact cluster_prefixed_ne_empty freshHex
    | ok l =>
      cases l with
      | nil => exact cluster_prefixed_ne_empty freshHex
      | cons hit tl =>
        dsimp only
        cases hdist : hit.distance with
        | none => exact cluster_prefixed_ne_empty freshHex
        | some d =>
          dsimp only
          by_cases hcond : d ≤ threshold.getD st.ONLINE_CLUSTER_DISTANCE_THRESHOLD ∧ hit.id ≠ ""
          · rw [if_pos hcond]
            exact hcond.2
          · rw [if_neg hcond]
            exact cluster_prefixed_ne_empty freshHex
  · rintro u rfl
    rfl
  · intro persistOk₂
    unfold assign_or_create_cluster _create_new_prototype
    cases nearestRes with
    | error u => rfl
    | ok l =>
      cases l with
      | nil => rfl
      | cons hit tl =>
        dsimp only
        cases hdist : hit.distance with
        | none => rfl
        | some d =>
          dsimp only
          by_cases hcond : d ≤ threshold.getD st.ONLINE_CLUSTER_DISTANCE_THRESHOLD ∧ hit.id ≠ ""
          · rw [if_pos hcond, if_pos hcond]
          · rw [if_neg hcond, if_neg hcond]

/-- Witness for C6 at a raising lookup with failing persistence. -/
theorem assign_or_create_error_resilience_witness :
    (assign_or_create_cluster sampleSettings "macos" "some text" none
        (.error ()) "aabbccddeeff" false).cluster_id = "cluster_" ++ "aabbccddeeff" :=
  (assign_or_create_error_resilience sampleSettings "macos" "some text" none
      (.error ()) "aabbccddeeff" false).2.1 () rfl

/-! ### Claims C4, C3, C10: cluster enricher -/

/-- C4: processing a candidate always ends with the `XACK` of the message on
the `clusters:candidates` stream, whatever the outcome of every enrichment
step — prototype fetch, neighbour query, hypothesis generation, evidence
retrieval, LLM call, alert publish and prototype update. -/
theorem enricher_always_acks (st : Settings) (group : String) (msg : CandidateMsg)
    (o : EnrichOracle) :
    ∃ pre, processCandidate st group msg o =
      pre ++ [KVEffect.ack st.CLUSTERS_CANDIDATES_STREAM group msg.msgId] := by
  unfold processCandidate
  cases o.proto with
  | error u => exact ⟨[], rfl⟩
  | ok triple =>
    obtain ⟨centroid, medoid, pm⟩ := triple
    dsimp only
    split
    · exact ⟨[], rfl⟩
    · split
      · exact ⟨[], rfl⟩
      · cases o.classify with
        | error u => exact ⟨[], rfl⟩
        | ok res =>
          dsimp only
          split
          · exact ⟨[KVEffect.xadd st.ALERTS_STREAM _], rfl⟩
          · exact ⟨KVEffect.xadd st.ALERTS_STREAM _ ::
              (if o.protoUpdateOk = true then
                [KVEffect.protoUpdate (_proto_collection_name st
                    (if msg.os = "" then "unknown" else msg.os)) msg.cluster_id _]
               else []), by rw [List.cons_append]⟩

/-- C3 counterexample: at a fully successful concrete run the enricher
appends the alert to the `alerts` stream but issues no `HSET` of any
`alert:<entry_id>` hash and no `EXPIRE`, so no hash with
`TTL = ALERTS_TTL_SEC` is stored. -/
theorem enricher_no_hash_write_counterexample :
    ((processCandidate sampleSettings "clusters_enrichers" sampleMsg sampleOracle).all
        (fun e => !isHashWrite e)) = true
    ∧ ((processCandidate sampleSettings "clusters_enrichers" sampleMsg sampleOracle).any
        (isXaddTo "alerts")) = true := by
  constructor
  · decide
  · decide

/-- C3 (amended): for every candidate it processes successfully (prototype
fetch, hypothesis generation and LLM classification succeed, and the
neighbour query does not raise fatally), the cluster enricher appends an
Alert entry to the alerts stream; it never stores an `alert:<entry_id>` hash
and never sets a TTL — on no path does the trace contain a hash write or
expiry. -/
theorem enricher_streams_alert_and_never_writes_hash
    (st : Settings) (group : String) (msg : CandidateMsg) (o : EnrichOracle) :
    (∀ e ∈ processCandidate st group msg o, isHashWrite e = false)
    ∧ (∀ centroid medoid pm res,
        o.proto = .ok (centroid, medoid, pm) →
        o.neighbors ≠ NeighborOutcome.fatalErr →
        o.hypothesisOk = true →
        o.classify = .ok res →
        ∃ p, KVEffect.xadd st.ALERTS_STREAM p ∈ processCandidate st group msg o) := by
  constructor
  · intro e he
    unfold processCandidate at he
    cases hp : o.proto with
    | error u =>
      rw [hp] at he
      simp only [List.mem_singleton] at he
      subst he; rfl
    | ok triple =>
      obtain ⟨centroid, medoid, pm⟩ := triple
      rw [hp] at he
      dsimp only at he
      split at he
      · simp only [List.mem_singleton] at he
        subst he; rfl
      · split at he
        · simp only [List.mem_singleton] at he
          subst he; rfl
        · split at he
          · simp only [List.mem_singleton] at he
            subst he; rfl
          · split at he
            · simp only [List.mem_cons, List.not_mem_nil, or_false] at he
              rcases he with rfl | rfl
              · rfl
              · rfl
            · simp only [List.mem_append, List.mem_cons, List.mem_singleton,
                List.not_mem_nil, or_false] at he
              rcases he with (rfl | he) | rfl
              · rfl
              · split at he
                · simp only [List.mem_singleton] at he
                  subst he; rfl
                · cases he
              · rfl
  · intro centroid medoid pm res hp hn hh hc
    unfold processCandidate
    rw [hp]
    dsimp only
    rw [if_neg (fun hand => hn hand.2), hh, hc]
    rw [if_neg (by decide : ¬(true : Bool) = false)]
    dsimp only
    split
    · exact ⟨_, List.mem_cons_self _ _⟩
    · exact ⟨_, List.mem_append_left _ (List.mem_cons_self _ _)⟩

/-- Witness for C3 (amended): the existence part at the concrete sample run. -/
theorem enricher_streams_alert_witness :
    ∃ p, KVEffect.xadd sampleSettings.ALERTS_STREAM p ∈
      processCandidate sampleSettings "clusters_enrichers" sampleMsg sampleOracle :=
  (enricher_streams_alert_and_never_writes_hash sampleSettings "clusters_enrichers"
      sampleMsg sampleOracle).2
    (some [(1 : ℚ)]) "kernel panic" ⟨some "unknown", some "online", none⟩
    ⟨some "disk_failure", some "0.9", some "replace the disk"⟩
    rfl (by decide) rfl rfl

/-- Folds that append evidence and insert non-empty env ids keep the env -/
/- list duplicate-free and free of `""`. -/
theorem foldl_env_props {β : Type} (g : List Evidence × List String → β → List Evidence)
    (envOf : β → String) :
    ∀ (bs : List β) (acc : List Evidence × List String),
      acc.2.Nodup → "" ∉ acc.2 →
      (bs.foldl (fun acc b =>
          (g acc b, if envOf b ≠ "" then insertUniq acc.2 (envOf b) else acc.2)) acc).2.Nodup
      ∧ "" ∉ (bs.foldl (fun acc b =>
          (g acc b, if envOf b ≠ "" then insertUniq acc.2 (envOf b) else acc.2)) acc).2 := by
  intro bs
  induction bs with
  | nil => intro acc h1 h2; exact ⟨h1, h2⟩
  | cons b bs ih =>
    intro acc h1 h2
    simp only [List.foldl_cons]
    apply ih
    · by_cases hb : envOf b ≠ ""
      · simpa only [if_pos hb] using nodup_insertUniq _ _ h1
      · simpa only [if_neg hb] using h1
    · by_cases hb : envOf b ≠ ""
      · simpa only [if_pos hb] using empty_not_mem_insertUniq _ _ h2 hb
      · simpa only [if_neg hb] using h2

/-- The env list of `gatherFromRows` is duplicate-free and without `""`. -/
theorem gatherFromRows_env_props (osName : String) (rows : List LogRow) :
    (gatherFromRows osName rows).2.Nodup ∧ "" ∉ (gatherFromRows osName rows).2 := by
  unfold gatherFromRows
  exact foldl_env_props
    (fun acc row => acc.1 ++ [⟨row.id, row.doc, row.raw, row.source, row.osMeta.getD osName, row.env_id⟩])
    (fun row => row.env_id) rows ([], []) List.nodup_nil (List.not_mem_nil "")

/-- The env list of `gatherFromSamples` is duplicate-free and without `""`. -/
theorem gatherFromSamples_env_props (osName : String) (samples : List SampleLog) :
    (gatherFromSamples osName samples).2.Nodup ∧ "" ∉ (gatherFromSamples osName samples).2 := by
  unfold gatherFromSamples
  exact foldl_env_props
    (fun acc s => acc.1 ++ [⟨s.id, s.templated, s.raw, s.source,
        if s.os = "" then osName else s.os, s.env_id⟩])
    (fun s => s.env_id) (samples.take 10) ([], []) List.nodup_nil (List.not_mem_nil "")

/-- The `env_ids` fallback list is duplicate-free and without `""`. -/
theorem envIdsFallback_props (raw : List String) :
    (envIdsFallback raw).Nodup ∧ "" ∉ envIdsFallback raw := by
  unfold envIdsFallback
  suffices h : ∀ (bs : List String) (acc : List String), acc.Nodup → "" ∉ acc →
      (bs.foldl (fun a e => if e ≠ "" then insertUniq a e else a) acc).Nodup
      ∧ "" ∉ bs.foldl (fun a e => if e ≠ "" then insertUniq a e else a) acc by
    exact h raw [] List.nodup_nil (List.not_mem_nil "")
  intro bs
  induction bs with
  | nil => intro acc h1 h2; exact ⟨h1, h2⟩
  | cons b bs ih =>
    intro acc h1 h2
    simp only [List.foldl_cons]
    apply ih
    · by_cases hb : b ≠ ""
      · simpa only [if_pos hb] using nodup_insertUniq _ _ h1
      · simpa only [if_neg hb] using h1
    · by_cases hb : b ≠ ""
      · simpa only [if_pos hb] using empty_not_mem_insertUniq _ _ h2 hb
      · simpa only [if_neg hb] using h2

/-- The env list attached to an alert is duplicate-free and without `""`. -/
theorem gatherEvidence_env_props (osName : String) (msg : CandidateMsg) (o : EnrichOracle) :
    (gatherEvidence osName msg o).2.Nodup ∧ "" ∉ (gatherEvidence osName msg o).2 := by
  unfold gatherEvidence
  dsimp only
  split
  · split
    · exact envIdsFallback_props _
    · exact gatherFromSamples_env_props _ _
  · split
    · exact envIdsFallback_props _
    · exact gatherFromRows_env_props _ _

/-- C10: every alert payload the enricher publishes carries in `env_ids` the
duplicate-free list of non-empty gathered environment ids, sets `env_id` to
the unique element when exactly one distinct env id was gathered and to `""`
otherwise; and the `list_alerts` projection applies the same singleton rule
when the stored `env_id` is empty. -/
theorem enricher_env_id_singleton_rule
    (st : Settings) (group : String) (msg : CandidateMsg) (o : EnrichOracle) :
    (∀ p : AlertPayload, KVEffect.xadd st.ALERTS_STREAM p ∈ processCandidate st group msg o →
        p.env_ids.Nodup ∧ "" ∉ p.env_ids
        ∧ (∀ e, p.env_ids = [e] → p.env_id = e)
        ∧ (p.env_ids.length ≠ 1 → p.env_id = ""))
    ∧ (∀ envIds : List String,
        (∀ e, envIds = [e] → _display_env_id "" envIds = some e)
        ∧ (envIds.length ≠ 1 → _display_env_id "" envIds = none)) := by
  constructor
  · intro p he
    unfold processCandidate at he
    cases hp : o.proto with
    | error u =>
      rw [hp] at he
      simp only [List.mem_singleton] at he
      cases he
    | ok triple =>
      obtain ⟨centroid, medoid, pm⟩ := triple
      rw [hp] at he
      dsimp only at he
      split at he
      · simp only [List.mem_singleton] at he
        cases he
      · split at he
        · simp only [List.mem_singleton] at he
          cases he
        · split at he
          · simp only [List.mem_singleton] at he
            cases he
          · split at he
            · simp only [List.mem_cons, List.not_mem_nil, or_false] at he
              rcases he with he | he
              · injection he with h1 h2
                subst h2
                refine ⟨(gatherEvidence_env_props _ msg o).1,
                        (gatherEvidence_env_props _ msg o).2, ?_, ?_⟩
                · intro e hE
                  dsimp only at hE ⊢
                  rw [hE]
                · intro hlen
                  dsimp only at hlen ⊢
                  cases hE : (gatherEvidence (if msg.os = "" then "unknown" else msg.os) msg o).2 with
                  | nil => rfl
                  | cons e tl =>
                    cases tl with
                    | nil => exact absurd (by rw [hE]; rfl) hlen
                    | cons f tl₂ => rfl
              · cases he
            · simp only [List.mem_append, List.mem_cons, List.mem_singleton,
                List.not_mem_nil, or_false] at he
              rcases he with (he | he) | he
              · injection he with h1 h2
                subst h2
                refine ⟨(gatherEvidence_env_props _ msg o).1,
                        (gatherEvidence_env_props _ msg o).2, ?_, ?_⟩
                · intro e hE
                  dsimp only at hE ⊢
                  rw [hE]
                · intro hlen
                  dsimp only at hlen ⊢
                  cases hE : (gatherEvidence (if msg.os = "" then "unknown" else msg.os) msg o).2 with
                  | nil => rfl
                  | cons e tl =>
                    cases tl with
                    | nil => exact absurd (by rw [hE]; rfl) hlen
                    | cons f tl₂ => rfl
              · split at he
                · simp only [List.mem_singleton] at he
                  cases he
                · cases he
              · cases he
  · intro envIds
    constructor
    · intro e hE
      subst hE
      rfl
    · intro hlen
      unfold _display_env_id
      rw [if_neg (by simp)]
      cases envIds with
      | nil => rfl
      | cons e tl =>
        cases tl with
        | nil => exact absurd rfl hlen
        | cons f tl₂ => rfl

/-- Witness for C10 at the concrete sample run, whose single evidence row
carries the one env id `env-001`. -/
theorem enricher_env_id_singleton_rule_witness :
    (AlertPayload.mk "cluster" "linux" "cluster_ab12cd34ef56" "disk_failure" "0.9"
        ⟨some "disk_failure", some "0.9", some "replace the disk"⟩ "env-001" ["env-001"]
        [⟨"log1", "doc1", "raw1", "linux.log", "linux", "env-001"⟩]).env_ids.Nodup
    ∧ "" ∉ (AlertPayload.mk "cluster" "linux" "cluster_ab12cd34ef56" "disk_failure" "0.9"
        ⟨some "disk_failure", some "0.9", some "replace the disk"⟩ "env-001" ["env-001"]
        [⟨"log1", "doc1", "raw1", "linux.log", "linux", "env-001"⟩]).env_ids
    ∧ (∀ e, (AlertPayload.mk "cluster" "linux" "cluster_ab12cd34ef56" "disk_failure" "0.9"
        ⟨some "disk_failure", some "0.9", some "replace the disk"⟩ "env-001" ["env-001"]
        [⟨"log1", "doc1", "raw1", "linux.log", "linux", "env-001"⟩]).env_ids = [e] →
        (AlertPayload.mk "cluster" "linux" "cluster_ab12cd34ef56" "disk_failure" "0.9"
        ⟨some "disk_failure", some "0.9", some "replace the disk"⟩ "env-001" ["env-001"]
        [⟨"log1", "doc1", "raw1", "linux.log", "linux", "env-001"⟩]).env_id = e)
    ∧ ((AlertPayload.mk "cluster" "linux" "cluster_ab12cd34ef56" "disk_failure" "0.9"
        ⟨some "disk_failure", some "0.9", some "replace the disk"⟩ "env-001" ["env-001"]
        [⟨"log1", "doc1", "raw1", "linux.log", "linux", "env-001"⟩]).env_ids.length ≠ 1 →
        (AlertPayload.mk "cluster" "linux" "cluster_ab12cd34ef56" "disk_failure" "0.9"
        ⟨some "disk_failure", some "0.9", some "replace the disk"⟩ "env-001" ["env-001"]
        [⟨"log1", "doc1", "raw1", "linux.log", "linux", "env-001"⟩]).env_id = "") :=
  (enricher_env_id_singleton_rule sampleSettings "clusters_enrichers" sampleMsg sampleOracle).1
    (AlertPayload.mk "cluster" "linux" "cluster_ab12cd34ef56" "disk_failure" "0.9"
        ⟨some "disk_failure", some "0.9", some "replace the disk"⟩ "env-001" ["env-001"]
        [⟨"log1", "doc1", "raw1", "linux.log", "linux", "env-001"⟩])
    (by decide)

/-! ### Claim C5: feedback flip -/

/-- Setting a field makes it readable. -/
theorem lookupAssoc_setField (fields : List (String × String)) (f v : String) :
    lookupAssoc (setField fields f v) f = some v := by
  induction fields with
  | nil => simp [setField, lookupAssoc]
  | cons kv rest ih =>
    obtain ⟨k₁, v₁⟩ := kv
    by_cases hk : k₁ = f
    · simp [setField, hk, lookupAssoc]
    · simp only [setField, if_neg hk, lookupAssoc]
      exact ih

/-- `setHashField` rewrites exactly the hash stored at `key`. -/
theorem lookupAssoc_setHashField (hs : List (String × List (String × String)))
    (key f v : String) :
    lookupAssoc (setHashField hs key f v) key =
      (lookupAssoc hs key).map (fun fields => setField fields f v) := by
  induction hs with
  | nil => rfl
  | cons kfl rest ih =>
    obtain ⟨k, fl⟩ := kfl
    by_cases hk : k = key
    · rw [setHashField, if_pos hk]
      simp only [lookupAssoc]
      rw [if_pos hk, if_pos hk]
      rfl
    · rw [setHashField, if_neg hk]
      simp only [lookupAssoc]
      rw [if_neg hk, if_neg hk]
      exact ih

/-- C5: `add_feedback` fails with 404 when the alert hash is absent and
otherwise atomically sets the hash's `feedback` field, adds the id to the
set matching the kind and removes it from the other set, leaving every other
id untouched — so membership in the correct and incorrect feedback sets
stays mutually exclusive. -/
theorem add_feedback_atomic_flip (st : AlertsStoreState) (entryId : String) (fb : FeedbackKind) :
    (lookupAssoc st.hashes ("alert:" ++ entryId) = none →
      add_feedback st entryId fb = .error 404)
    ∧ (∀ st₂, add_feedback st entryId fb = .ok st₂ →
        getHashField st₂.hashes ("alert:" ++ entryId) "feedback" = some (fbStr fb)
        ∧ (fb = .correct → entryId ∈ st₂.correctSet ∧ entryId ∉ st₂.incorrectSet)
        ∧ (fb = .incorrect → entryId ∈ st₂.incorrectSet ∧ entryId ∉ st₂.correctSet)
        ∧ (∀ j, j ≠ entryId →
            ((j ∈ st₂.correctSet ↔ j ∈ st.correctSet)
              ∧ (j ∈ st₂.incorrectSet ↔ j ∈ st.incorrectSet)))
        ∧ ((∀ j, ¬(j ∈ st.correctSet ∧ j ∈ st.incorrectSet)) →
            ∀ j, ¬(j ∈ st₂.correctSet ∧ j ∈ st₂.incorrectSet))) := by
  constructor
  · intro hnone
    unfold add_feedback
    dsimp only
    rw [hnone]
  · intro st₂ hok
    unfold add_feedback at hok
    dsimp only at hok
    cases hl : lookupAssoc st.hashes ("alert:" ++ entryId) with
    | none => rw [hl] at hok; cases hok
    | some fields =>
      rw [hl] at hok
      injection hok with hok
      subst hok
      refine ⟨?_, ?_, ?_, ?_, ?_⟩
      · unfold getHashField
        rw [lookupAssoc_setHashField, hl]
        exact lookupAssoc_setField fields "feedback" (fbStr fb)
      · rintro rfl
        dsimp only
        constructor
        · exact (mem_insertUniq _ _ _).mpr (Or.inl rfl)
        · intro hmem
          exact ((mem_sremList _ _ _).mp hmem).2 rfl
      · rintro rfl
        dsimp only
        constructor
        · exact (mem_insertUniq _ _ _).mpr (Or.inl rfl)
        · intro hmem
          exact ((mem_sremList _ _ _).mp hmem).2 rfl
      · intro j hj
        cases fb with
        | correct =>
          constructor
          · dsimp only
            rw [mem_insertUniq]
            exact ⟨fun h => h.resolve_left hj, Or.inr⟩
          · dsimp only
            rw [mem_sremList]
            exact ⟨fun h => h.1, fun h => ⟨h, hj⟩⟩
        | incorrect =>
          constructor
          · dsimp only
            rw [mem_sremList]
            exact ⟨fun h => h.1, fun h => ⟨h, hj⟩⟩
          · dsimp only
            rw [mem_insertUniq]
            exact ⟨fun h => h.resolve_left hj, Or.inr⟩
      · intro hdisj j hj
        cases fb with
        | correct =>
          obtain ⟨hc, hi⟩ := hj
          dsimp only at hc hi
          rcases (mem_insertUniq _ _ _).mp hc with rfl | hc₂
          · exact ((mem_sremList _ _ _).mp hi).2 rfl
          · exact hdisj j ⟨hc₂, ((mem_sremList _ _ _).mp hi).1⟩
        | incorrect =>
          obtain ⟨hc, hi⟩ := hj
          dsimp only at hc hi
          rcases (mem_insertUniq _ _ _).mp hi with rfl | hi₂
          · exact ((mem_sremList _ _ _).mp hc).2 rfl
          · exact hdisj j ⟨((mem_sremList _ _ _).mp hc).1, hi₂⟩

/-- Witness for C5: flipping a concrete alert from the correct set to the
incorrect set. -/
theorem add_feedback_atomic_flip_witness :
    getHashField (AlertsStoreState.mk
        [("alert:a1", [("type", "cluster"), ("feedback", "incorrect")])] [] ["a1"]).hashes
        ("alert:" ++ "a1") "feedback" = some (fbStr .incorrect)
    ∧ (FeedbackKind.incorrect = .correct →
        "a1" ∈ (AlertsStoreState.mk
          [("alert:a1", [("type", "cluster"), ("feedback", "incorrect")])] [] ["a1"]).correctSet
        ∧ "a1" ∉ (AlertsStoreState.mk
          [("alert:a1", [("type", "cluster"), ("feedback", "incorrect")])] [] ["a1"]).incorrectSet)
    ∧ (FeedbackKind.incorrect = .incorrect →
        "a1" ∈ (AlertsStoreState.mk
          [("alert:a1", [("type", "cluster"), ("feedback", "incorrect")])] [] ["a1"]).incorrectSet
        ∧ "a1" ∉ (AlertsStoreState.mk
          [("alert:a1", [("type", "cluster"), ("feedback", "incorrect")])] [] ["a1"]).correctSet)
    ∧ (∀ j, j ≠ "a1" →
        ((j ∈ (AlertsStoreState.mk
            [("alert:a1", [("type", "cluster"), ("feedback", "incorrect")])] [] ["a1"]).correctSet ↔
          j ∈ (AlertsStoreState.mk [("alert:a1", [("type", "cluster")])] ["a1"] []).correctSet)
          ∧ (j ∈ (AlertsStoreState.mk
            [("alert:a1", [("type", "cluster"), ("feedback", "incorrect")])] [] ["a1"]).incorrectSet ↔
          j ∈ (AlertsStoreState.mk [("alert:a1", [("type", "cluster")])] ["a1"] []).incorrectSet)))
    ∧ ((∀ j, ¬(j ∈ (AlertsStoreState.mk [("alert:a1", [("type", "cluster")])] ["a1"] []).correctSet
          ∧ j ∈ (AlertsStoreState.mk [("alert:a1", [("type", "cluster")])] ["a1"] []).incorrectSet)) →
        ∀ j, ¬(j ∈ (AlertsStoreState.mk
            [("alert:a1", [("type", "cluster"), ("feedback", "incorrect")])] [] ["a1"]).correctSet
          ∧ j ∈ (AlertsStoreState.mk
            [("alert:a1", [("type", "cluster"), ("feedback", "incorrect")])] [] ["a1"]).incorrectSet)) :=
  (add_feedback_atomic_flip
      (AlertsStoreState.mk [("alert:a1", [("type", "cluster")])] ["a1"] []) "a1" .incorrect).2
    (AlertsStoreState.mk
      [("alert:a1", [("type", "cluster"), ("feedback", "incorrect")])] [] ["a1"])
    (by decide)

/-! ### Claim C9: severity keywords -/

/-- A Boolean `any` of substring tests agrees with the existential over the
keyword list. -/
theorem hasAny_iff (m : List Char) (ks : List String) :
    (ks.any (fun k => hasSub m k.data)) = true ↔
      ∃ k ∈ ks, ∃ l r, m = l ++ k.data ++ r := by
  rw [List.any_eq_true]
  constructor
  · rintro ⟨k, hk, hs⟩
    exact ⟨k, hk, (hasSub_iff k.data m).mp hs⟩
  · rintro ⟨k, hk, hs⟩
    exact ⟨k, hk, (hasSub_iff k.data m).mpr hs⟩

/-- C9 counterexample: the medoid "connection timeout" contains the keyword
`timeout`, yet the env-scoped `_severity_from_medoid` in `environments.py`
returns `warning`, not `critical` as the claim requires. -/
theorem severity_env_timeout_counterexample :
    _severity_from_medoid_env "connection timeout" = "warning"
    ∧ (∃ l r, (lowerStr "connection timeout").data = l ++ ("timeout").data ++ r)
    ∧ _severity_from_medoid_env "connection timeout" ≠ "critical"
    ∧ _severity_from_medoid_incidents "connection timeout" = "critical" := by
  refine ⟨by decide, ⟨("connection ").data, [], by decide⟩, by decide, by decide⟩

/-- C9 (amended): the env-scoped severity (`environments.py`) is `critical`
exactly when the lowercased medoid contains one of `failed`, `error`,
`critical`, `i/o error`, `out of memory`, `servfail` — NOT `timeout` — and
`warning` otherwise; the incidents variant (`incidents.py`) additionally
treats `timeout` as critical. -/
theorem severity_from_medoid_keyword_characterization (medoid : String) :
    (_severity_from_medoid_env medoid = "critical" ↔
      ∃ k ∈ envSevKeywords, ∃ l r, (lowerStr medoid).data = l ++ k.data ++ r)
    ∧ (_severity_from_medoid_env medoid = "warning" ↔
      ¬ ∃ k ∈ envSevKeywords, ∃ l r, (lowerStr medoid).data = l ++ k.data ++ r)
    ∧ (_severity_from_medoid_incidents medoid = "critical" ↔
      ∃ k ∈ incidentSevKeywords, ∃ l r, (lowerStr medoid).data = l ++ k.data ++ r)
    ∧ (_severity_from_medoid_incidents medoid = "warning" ↔
      ¬ ∃ k ∈ incidentSevKeywords, ∃ l r, (lowerStr medoid).data = l ++ k.data ++ r) := by
  unfold _severity_from_medoid_env _severity_from_medoid_incidents
  by_cases h1 : (envSevKeywords.any (fun k => hasSub (lowerStr medoid).data k.data)) = true
  · by_cases h2 : (incidentSevKeywords.any (fun k => hasSub (lowerStr medoid).data k.data)) = true
    · rw [if_pos h1, if_pos h2]
      refine ⟨?_, ?_, ?_, ?_⟩
      · simp only [true_iff]; exact (hasAny_iff _ _).mp h1
      · constructor
        · intro hc; exact absurd hc (by decide)
        · intro hc; exact absurd ((hasAny_iff _ _).mp h1) hc
      · simp only [true_iff]; exact (hasAny_iff _ _).mp h2
      · constructor
        · intro hc; exact absurd hc (by decide)
        · intro hc; exact absurd ((hasAny_iff _ _).mp h2) hc
    · rw [if_pos h1, if_neg h2]
      refine ⟨?_, ?_, ?_, ?_⟩
      · simp only [true_iff]; exact (hasAny_iff _ _).mp h1
      · constructor
        · intro hc; exact absurd hc (by decide)
        · intro hc; exact absurd ((hasAny_iff _ _).mp h1) hc
      · constructor
        · intro hc; exact absurd hc (by decide)
        · intro hc; exact absurd ((hasAny_iff _ _).mpr hc) h2
      · constructor
        · intro _
          intro hc; exact absurd ((hasAny_iff _ _).mpr hc) h2
        · intro _; rfl
  · by_cases h2 : (incidentSevKeywords.any (fun k => hasSub (lowerStr medoid).data k.data)) = true
    · rw [if_neg h1, if_pos h2]
      refine ⟨?_, ?_, ?_, ?_⟩
      · constructor
        · intro hc; exact absurd hc (by decide)
        · intro hc; exact absurd ((hasAny_iff _ _).mpr hc) h1
      · constructor
        · intro _
          intro hc; exact absurd ((hasAny_iff _ _).mpr hc) h1
        · intro _; rfl
      · simp only [true_iff]; exact (hasAny_iff _ _).mp h2
      · constructor
        · intro hc; exact absurd hc (by decide)
        · intro hc; exact absurd ((hasAny_iff _ _).mp h2) hc
    · rw [if_neg h1, if_neg h2]
      refine ⟨?_, ?_, ?_, ?_⟩
      · constructor
        · intro hc; exact absurd hc (by decide)
        · intro hc; exact absurd ((hasAny_iff _ _).mpr hc) h1
      · constructor
        · intro _
          intro hc; exact absurd ((hasAny_iff _ _).mpr hc) h1
        · intro _; rfl
      · constructor
        · intro hc; exact absurd hc (by decide)
        · intro hc; exact absurd ((hasAny_iff _ _).mpr hc) h2
      · constructor
        · intro _
          intro hc; exact absurd ((hasAny_iff _ _).mpr hc) h2
        · intro _; rfl

/-! ### Claim C8: list_alerts ordering, bound and filter -/

/-- Totality of the lexicographic comparison. -/
theorem lexLe_total : ∀ a b : List Char, lexLe a b = true ∨ lexLe b a = true := by
  intro a
  induction a with
  | nil => intro b; exact Or.inl rfl
  | cons x xs ih =>
    intro b
    cases b with
    | nil => exact Or.inr rfl
    | cons y ys =>
      by_cases hxy : x < y
      · left; simp [lexLe, hxy]
      · by_cases hyx : y < x
        · right; simp [lexLe, hyx]
        · rcases ih ys with h | h
          · left; simp [lexLe, hxy, hyx, h]
          · right; simp [lexLe, hyx, hxy, h]

/-- Transitivity of the lexicographic comparison. -/
theorem lexLe_trans : ∀ a b c : List Char,
    lexLe a b = true → lexLe b c = true → lexLe a c = true := by
  intro a
  induction a with
  | nil => intro b c h1 h2; rfl
  | cons x xs ih =>
    intro b c h1 h2
    cases b with
    | nil => simp [lexLe] at h1
    | cons y ys =>
      cases c with
      | nil => simp [lexLe] at h2
      | cons z zs =>
        simp only [lexLe] at h1 h2 ⊢
        by_cases hxy : x < y
        · by_cases hyz : y < z
          · have hxz : x < z := lt_trans hxy hyz
            simp [hxz]
          · by_cases hzy : z < y
            · rw [if_neg hyz, if_pos hzy] at h2
              exact absurd h2 (by decide)
            · have hyz2 : y = z := le_antisymm (not_lt.mp hzy) (not_lt.mp hyz)
              subst hyz2
              simp [hxy]
        · by_cases hyx : y < x
          · rw [if_neg hxy, if_pos hyx] at h1
            exact absurd h1 (by decide)
          · have hxy2 : x = y := le_antisymm (not_lt.mp hyx) (not_lt.mp hxy)
            subst hxy2
            rw [if_neg hxy, if_neg hyx] at h1
            by_cases hxz : x < z
            · simp [hxz]
            · by_cases hzx : z < x
              · rw [if_neg hxz, if_pos hzx] at h2
                exact absurd h2 (by decide)
              · have hxz2 : x = z := le_antisymm (not_lt.mp hzx) (not_lt.mp hxz)
                subst hxz2
                rw [if_neg hxz, if_neg hzx] at h2 ⊢
                exact ih ys zs h1 h2

/-- Membership in `insertBy`. -/
theorem mem_insertBy {α : Type} (le : α → α → Bool) (a x : α) :
    ∀ l : List α, x ∈ insertBy le a l ↔ x = a ∨ x ∈ l := by
  intro l
  induction l with
  | nil => simp [insertBy]
  | cons b t ih =>
    by_cases h : le a b = true
    · simp [insertBy, h, List.mem_cons]
    · simp only [insertBy, if_neg h, List.mem_cons, ih]
      tauto

/-- Inserting into a `le`-sorted list keeps it sorted, for a total and
transitive comparison. -/
theorem pairwise_insertBy {α : Type} (le : α → α → Bool)
    (htot : ∀ x y, le x y = true ∨ le y x = true)
    (htr : ∀ x y z, le x y = true → le y z = true → le x z = true)
    (a : α) : ∀ l : List α, l.Pairwise (fun x y => le x y = true) →
      (insertBy le a l).Pairwise (fun x y => le x y = true) := by
  intro l
  induction l with
  | nil => intro _; exact List.pairwise_singleton _ _
  | cons b t ih =>
    intro hp
    rcases List.pairwise_cons.mp hp with ⟨hb, ht⟩
    by_cases h : le a b = true
    · simp only [insertBy, if_pos h]
      refine List.pairwise_cons.mpr ⟨?_, hp⟩
      intro x hx
      rcases List.mem_cons.mp hx with rfl | hx₂
      · exact h
      · exact htr a b x h (hb x hx₂)
    · simp only [insertBy, if_neg h]
      refine List.pairwise_cons.mpr ⟨?_, ih ht⟩
      intro x hx
      rcases (mem_insertBy le a x t).mp hx with rfl | hx₂
      · rcases htot x b with h2 | h2
        · exact absurd h2 h
        · exact h2
      · exact hb x hx₂

/-- Insertion sort produces a `le`-sorted list. -/
theorem pairwise_sortBy {α : Type} (le : α → α → Bool)
    (htot : ∀ x y, le x y = true ∨ le y x = true)
    (htr : ∀ x y z, le x y = true → le y z = true → le x z = true) :
    ∀ l : List α, (sortBy le l).Pairwise (fun x y => le x y = true) := by
  intro l
  induction l with
  | nil => exact List.Pairwise.nil
  | cons a t ih => exact pairwise_insertBy le htot htr a _ ih

/-- C8: `list_alerts` returns a list sorted by alert id descending, of
length at most `limit`; when a non-empty `env_id` filter is supplied, every
returned alert has it among its `env_ids` or as its `env_id`. -/
theorem list_alerts_sorted_bounded_filtered
    (streamEntries : List (String × StoredAlert)) (hashes : List (String × StoredAlert))
    (persistedIds : List String) (lim : Nat) (envFilter : Option String) :
    (list_alerts streamEntries hashes persistedIds lim envFilter).Pairwise
        (fun x y => strLe y.id x.id = true)
    ∧ (list_alerts streamEntries hashes persistedIds lim envFilter).length ≤ lim
    ∧ (∀ e a, envFilter = some e → e ≠ "" →
        a ∈ list_alerts streamEntries hashes persistedIds lim envFilter →
        e ∈ a.env_ids ∨ a.env_id = some e) := by
  have htot : ∀ x y : AlertOut, strLe y.id x.id = true ∨ strLe x.id y.id = true := by
    intro x y
    exact (lexLe_total y.id.data x.id.data).imp id id
  have htr : ∀ x y z : AlertOut,
      strLe y.id x.id = true → strLe z.id y.id = true → strLe z.id x.id = true := by
    intro x y z h1 h2
    exact lexLe_trans z.id.data y.id.data x.id.data h2 h1
  refine ⟨?_, ?_, ?_⟩
  · unfold list_alerts
    cases envFilter with
    | none =>
      dsimp only
      exact List.Pairwise.sublist (List.take_sublist _ _)
        (pairwise_sortBy _ (fun x y => htot x y) (fun x y z hxy hyz => htr x y z hxy hyz) _)
    | some e =>
      dsimp only
      by_cases he : e ≠ ""
      · rw [if_pos he]
        exact List.Pairwise.sublist (List.take_sublist _ _)
          ((pairwise_sortBy _ (fun x y => htot x y) (fun x y z hxy hyz => htr x y z hxy hyz) _).filter _)
      · rw [if_neg he]
        exact List.Pairwise.sublist (List.take_sublist _ _)
          (pairwise_sortBy _ (fun x y => htot x y) (fun x y z hxy hyz => htr x y z hxy hyz) _)
  · unfold list_alerts
    cases envFilter with
    | none =>
      dsimp only
      rw [List.length_take]
      exact min_le_left _ _
    | some e =>
      dsimp only
      by_cases he : e ≠ ""
      · rw [if_pos he, List.length_take]
        exact min_le_left _ _
      · rw [if_neg he, List.length_take]
        exact min_le_left _ _
  · intro e a henv hne hmem
    subst henv
    unfold list_alerts at hmem
    dsimp only at hmem
    rw [if_pos hne] at hmem
    have hmem₂ := List.mem_of_mem_take hmem
    have hf := (List.mem_filter.mp hmem₂).2
    exact of_decide_eq_true hf

/-- Witness for C8: the filter clause at a concrete one-alert store. -/
theorem list_alerts_filter_witness :
    "env-1" ∈ (mkAlertOut "1700000000000-0" []
        (StoredAlert.mk "cluster" "linux" "" "s" "sol" "rs" "rr" "env-1" "cluster_x"
          ["env-1"] [])).env_ids
    ∨ (mkAlertOut "1700000000000-0" []
        (StoredAlert.mk "cluster" "linux" "" "s" "sol" "rs" "rr" "env-1" "cluster_x"
          ["env-1"] [])).env_id = some "env-1" :=
  (list_alerts_sorted_bounded_filtered
      [("1700000000000-0",
        StoredAlert.mk "cluster" "linux" "" "s" "sol" "rs" "rr" "env-1" "cluster_x"
          ["env-1"] [])]
      [] [] 5 (some "env-1")).2.2 "env-1"
    (mkAlertOut "1700000000000-0" []
      (StoredAlert.mk "cluster" "linux" "" "s" "sol" "rs" "rr" "env-1" "cluster_x"
        ["env-1"] []))
    rfl (by decide) (by decide)

/-! ### Claim C2: cluster-candidate publish count -/

/-- Unrolling `countSteps` at the far end of the interval. -/
theorem countSteps_succ (minCount repubEvery : Nat) :
    ∀ (len k : Nat), countSteps minCount repubEvery k (len + 1) =
      countSteps minCount repubEvery k len +
      (if k + len + 1 = minCount ∨
          (0 < repubEvery ∧ minCount < k + len + 1 ∧ (k + len + 1) % repubEvery = 0)
       then 1 else 0) := by
  intro len
  induction len with
  | zero =>
    intro k
    simp [countSteps]
  | succ n ih =>
    intro k
    rw [countSteps]
    rw [ih (k + 1)]
    rw [countSteps]
    have harith : k + 1 + n + 1 = k + (n + 1) + 1 := by omega
    rw [harith]
    omega

/-- Closed form for the number of publishes among the first `n` counter
values: none below the threshold, one at the threshold, and one more at
every later multiple of `repubEvery`. -/
theorem countSteps_closed (minCount repubEvery : Nat) (hmin : 1 ≤ minCount) :
    ∀ n : Nat, countSteps minCount repubEvery 0 n =
      if minCount ≤ n then
        (if 0 < repubEvery then 1 + n / repubEvery - minCount / repubEvery else 1)
      else 0 := by
  intro n
  induction n with
  | zero =>
    rw [if_neg (by omega : ¬ minCount ≤ 0)]
    rfl
  | succ n ih =>
    rw [countSteps_succ minCount repubEvery n 0, ih]
    by_cases h1 : minCount ≤ n
    · rw [if_pos h1, if_pos (by omega : minCount ≤ n + 1)]
      by_cases hR : 0 < repubEvery
      · rw [if_pos hR, if_pos hR]
        have hne : ¬ (0 + n + 1 = minCount) := by omega
        have hlt : minCount < 0 + n + 1 := by omega
        have hdivle : minCount / repubEvery ≤ n / repubEvery := Nat.div_le_div_right h1
        have hsucc := Nat.succ_div n repubEvery
        by_cases hdvd : repubEvery ∣ (n + 1)
        · have hmod : (0 + n + 1) % repubEvery = 0 := by
            have := Nat.dvd_iff_mod_eq_zero.mp hdvd
            simpa using this
          rw [if_pos (Or.inr ⟨hR, hlt, hmod⟩)]
          rw [hsucc, if_pos hdvd]
          omega
        · have hmod : ¬ ((0 + n + 1) % repubEvery = 0) := by
            intro hc
            exact hdvd (Nat.dvd_iff_mod_eq_zero.mpr (by simpa using hc))
          rw [if_neg (by
            rintro (h | ⟨_, _, hmod2⟩)
            · exact hne h
            · exact hmod hmod2)]
          rw [hsucc, if_neg hdvd]
          omega
      · rw [if_neg hR, if_neg hR]
        rw [if_neg (by
          rintro (h | ⟨hRpos, _, _⟩)
          · omega
          · exact hR hRpos)]
    · rw [if_neg h1]
      by_cases h2 : minCount ≤ n + 1
      · have heq : 0 + n + 1 = minCount := by omega
        rw [if_pos (Or.inl heq), if_pos h2]
        by_cases hR : 0 < repubEvery
        · rw [if_pos hR]
          have hMn : n + 1 = minCount := by omega
          rw [← hMn]
          omega
        · rw [if_neg hR]
      · rw [if_neg h2]
        rw [if_neg (by
          rintro (h | ⟨_, hlt, _⟩)
          · omega
          · omega)]

/-- With `min_interval = 0` and nondecreasing arrival times the gate always
passes, so the run publishes exactly at the counter values `countSteps`
counts. -/
theorem candRun_published_eq (minCount repubEvery : Nat) :
    ∀ (ts : List ℚ) (s : CandState),
      ts.Pairwise (fun a b => a ≤ b) →
      (∀ t ∈ ts, s.lastTs ≤ t) →
      (candRun minCount repubEvery 0 ts s).published =
        s.published + countSteps minCount repubEvery s.count ts.length := by
  intro ts
  induction ts with
  | nil =>
    intro s _ _
    simp [candRun, countSteps]
  | cons t ts ih =>
    intro s hsort hlast
    rcases List.pairwise_cons.mp hsort with ⟨hhead, htail⟩
    rw [candRun]
    by_cases hmin : s.count + 1 = minCount
    · rw [show candStep minCount repubEvery 0 t s = ⟨s.count + 1, s.lastTs, s.published + 1⟩ from by
        unfold candStep
        rw [if_pos hmin]]
      rw [ih ⟨s.count + 1, s.lastTs, s.published + 1⟩ htail
        (fun u hu => hlast u (List.mem_cons_of_mem t hu))]
      rw [List.length_cons, countSteps, if_pos (Or.inl hmin)]
      dsimp only
      omega
    · by_cases hcond : 0 < repubEvery ∧ minCount < s.count + 1 ∧ (s.count + 1) % repubEvery = 0
      · have hgate : (0 : ℚ) ≤ t - s.lastTs := by
          have := hlast t (List.mem_cons_self t ts)
          linarith
        rw [show candStep minCount repubEvery 0 t s = ⟨s.count + 1, t, s.published + 1⟩ from by
          unfold candStep
          rw [if_neg hmin, if_pos ⟨hcond.1, hcond.2.1, hcond.2.2, hgate⟩]]
        rw [ih ⟨s.count + 1, t, s.published + 1⟩ htail (fun u hu => hhead u hu)]
        rw [List.length_cons, countSteps, if_pos (Or.inr hcond)]
        dsimp only
        omega
      · rw [show candStep minCount repubEvery 0 t s = ⟨s.count + 1, s.lastTs, s.published⟩ from by
          unfold candStep
          rw [if_neg hmin, if_neg (fun hand => hcond ⟨hand.1, hand.2.1, hand.2.2.1⟩)]]
        rw [ih ⟨s.count + 1, s.lastTs, s.published⟩ htail
          (fun u hu => hlast u (List.mem_cons_of_mem t hu))]
        rw [List.length_cons, countSteps, if_neg (by
          rintro (h | h)
          · exact hmin h
          · exact hcond h)]
        dsimp only
        omega

/-- C2 counterexample: with `min_count = 2`, `republish_every = 3` and an
always-open gate (`min_interval = 0`), four logs make the code publish two
candidates (at counts 2 and 3), while the claimed formula
`1 + floor((count - min_count) / republish_every)` gives
`1 + (4 - 2) / 3 = 1`. -/
theorem republish_formula_counterexample :
    (candRun 2 3 0 [(0 : ℚ), 0, 0, 0] ⟨0, 0, 0⟩).published = 2
    ∧ 1 + (4 - 2) / 3 = 1
    ∧ (candRun 2 3 0 [(0 : ℚ), 0, 0, 0] ⟨0, 0, 0⟩).published ≠ 1 + (4 - 2) / 3 := by
  have hs : ([(0 : ℚ), 0, 0, 0] : List ℚ).Pairwise (fun a b => a ≤ b) := by
    norm_num [List.pairwise_cons]
  have hl : ∀ t ∈ ([(0 : ℚ), 0, 0, 0] : List ℚ), (⟨0, 0, 0⟩ : CandState).lastTs ≤ t := by
    intro t ht
    simp only [List.mem_cons, List.not_mem_nil, or_false] at ht
    rcases ht with rfl | rfl | rfl | rfl <;> exact le_refl 0
  have hrun : (candRun 2 3 0 [(0 : ℚ), 0, 0, 0] ⟨0, 0, 0⟩).published = 2 := by
    rw [candRun_published_eq 2 3 [(0 : ℚ), 0, 0, 0] ⟨0, 0, 0⟩ hs hl]
    decide
  refine ⟨hrun, by decide, by rw [hrun]; decide⟩

/-- C2 (amended): with the min-interval gate always open (`min_interval = 0`
and nondecreasing arrival times) and `min_count ≥ 1`, after `count`
processed logs the number of published candidates is
`1 + floor(count / republish_every) - floor(min_count / republish_every)`
once `count ≥ min_count` (i.e. one at the threshold plus one at every later
multiple of `republish_every`) and `0` before the threshold; when
`republish_every = 0`, exactly one candidate is published, at
`count = min_count`, and none thereafter. -/
theorem cluster_candidate_publish_count
    (minCount repubEvery : Nat) (ts : List ℚ)
    (hmin : 1 ≤ minCount)
    (hsort : ts.Pairwise (fun a b => a ≤ b))
    (hnn : ∀ t ∈ ts, (0 : ℚ) ≤ t) :
    (candRun minCount repubEvery 0 ts ⟨0, 0, 0⟩).published =
      if minCount ≤ ts.length then
        (if 0 < repubEvery then 1 + ts.length / repubEvery - minCount / repubEvery else 1)
      else 0 := by
  rw [candRun_published_eq minCount repubEvery ts ⟨0, 0, 0⟩ hsort (fun t ht => hnn t ht)]
  dsimp only
  rw [countSteps_closed minCount repubEvery hmin ts.length]
  omega

/-- Witness for C2 (amended) at `min_count = 2`, `republish_every = 3` and
four simultaneous logs: two candidates. -/
theorem cluster_candidate_publish_count_witness :
    (candRun 2 3 0 [(0 : ℚ), 0, 0, 0] ⟨0, 0, 0⟩).published =
      if 2 ≤ ([(0 : ℚ), 0, 0, 0] : List ℚ).length then
        (if 0 < 3 then 1 + ([(0 : ℚ), 0, 0, 0] : List ℚ).length / 3 - 2 / 3 else 1)
      else 0 :=
  cluster_candidate_publish_count 2 3 [(0 : ℚ), 0, 0, 0] (by decide)
    (by norm_num [List.pairwise_cons])
    (by
      intro t ht
      simp only [List.mem_cons, List.not_mem_nil, or_false] at ht
      rcases ht with rfl | rfl | rfl | rfl <;> exact le_refl 0)

/-! ### Claim C7: sanitizer -/

/-- The timestamp matcher needs a leading digit. -/
theorem matchTs_none_of_head_not_digit (c : Char) (rest : List Char)
    (h : c.isDigit = false) : matchTs (c :: rest) = none := by
  simp [matchTs, tsCore, eatDigits, h]

/-- The IP matcher needs a leading digit. -/
theorem matchIp_none_of_head_not_digit (c : Char) (rest : List Char)
    (h : c.isDigit = false) : matchIp (c :: rest) = none := by
  simp [matchIp, takeDigits, h]

/-- The long-number matcher needs a leading digit. -/
theorem matchNum_none_of_head_not_digit (c : Char) (rest : List Char)
    (h : c.isDigit = false) : matchNum (c :: rest) = none := by
  simp [matchNum, takeDigits, h]

/-- A substitution pass is the identity on digit-free text. -/
theorem scanAux_id_of_no_digits (tm : List Char → Option Nat) (repl : List Char)
    (htm : ∀ c rest, c.isDigit = false → tm (c :: rest) = none) :
    ∀ (cs : List Char) (b : Bool), (∀ c ∈ cs, c.isDigit = false) →
      scanAux tm repl cs b 0 = cs := by
  intro cs
  induction cs with
  | nil => intro b _; rfl
  | cons c rest ih =>
    intro b hall
    have hc : c.isDigit = false := hall c (List.mem_cons_self c rest)
    have hrest : ∀ x ∈ rest, x.isDigit = false :=
      fun x hx => hall x (List.mem_cons_of_mem c hx)
    simp [scanAux, htm c rest hc, ih (isWordChar c) hrest]

/-- `_sanitize_text` is the identity on digit-free strings: in particular it
collapses no whitespace and truncates nothing. -/
theorem sanitize_id_of_no_digits (s : String) (h : ∀ c ∈ s.data, c.isDigit = false) :
    _sanitize_text s = s := by
  unfold _sanitize_text runSub
  rw [scanAux_id_of_no_digits matchTs _ matchTs_none_of_head_not_digit s.data false h]
  rw [scanAux_id_of_no_digits matchIp _ matchIp_none_of_head_not_digit s.data false h]
  rw [scanAux_id_of_no_digits matchNum _ matchNum_none_of_head_not_digit s.data false h]

set_option maxRecDepth 8192 in
/-- C7 counterexample: on a 181-character digit-free content string with a
double space, `_sanitize_text` changes nothing — the output keeps its run of
whitespace and exceeds 180 characters, so the claimed collapsing and
truncation do not happen. -/
theorem sanitize_no_collapse_no_truncate_counterexample :
    _sanitize_text longText = longText
    ∧ 180 < (_sanitize_text longText).length
    ∧ hasSub (_sanitize_text longText).data (' ' :: ' ' :: []) = true := by
  have h1 : _sanitize_text longText = longText :=
    sanitize_id_of_no_digits longText (by decide)
  refine ⟨h1, ?_, ?_⟩
  · rw [h1]; decide
  · rw [h1]; decide

/-- C7 (amended): the content of every JSON-normalized integration log is a
`_sanitize_text` image; the sanitizer replaces ISO-8601 timestamps with
`<ts>`, dotted-quad IPs with `<ip>` and word-bounded integers of four or
more digits with `<num>` (leftmost scan, in that order), and performs no
other rewriting — in particular it is the identity on digit-free strings,
collapsing no whitespace and truncating nothing. -/
theorem sanitize_substitutions_applied :
    (∀ source obj t p, _normalize_json_for_clustering source obj = some (t, p) →
        ∃ q, p.content = _sanitize_text q)
    ∧ _sanitize_text "error 2024-01-02 03:04:05 from 10.0.0.1 code 12345"
        = "error <ts> from <ip> code <num>"
    ∧ (∀ s : String, (∀ c ∈ s.data, c.isDigit = false) → _sanitize_text s = s) := by
  refine ⟨?_, by decide, sanitize_id_of_no_digits⟩
  intro source obj t p hnorm
  unfold _normalize_json_for_clustering at hnorm
  cases obj with
  | none => cases hnorm
  | some o =>
    dsimp only at hnorm
    split at hnorm
    · cases hnorm
    · injection hnorm with h1
      cases h1
      exact ⟨_, rfl⟩

/-- Witness for C7 (amended): the normalization clause at a concrete SCOM
payload, and the digit-free identity at a concrete string. -/
theorem sanitize_substitutions_applied_witness :
    (∃ q, (NormParsed.mk "HOST01" ""
        (_sanitize_text "scom System Error HOST01 disk failure on 10.0.0.1") "env-7").content
          = _sanitize_text q)
    ∧ _sanitize_text "no digits here" = "no digits here" :=
  ⟨sanitize_substitutions_applied.1 "scom:host"
      (some [("EnvironmentId", "env-7"), ("ComputerName", "HOST01"),
             ("Channel", "System"), ("LevelDisplayName", "Error"),
             ("Message", "disk failure on 10.0.0.1")])
      (render_templated_line "HOST01" none
        (_sanitize_text "scom System Error HOST01 disk failure on 10.0.0.1"))
      (NormParsed.mk "HOST01" ""
        (_sanitize_text "scom System Error HOST01 disk failure on 10.0.0.1") "env-7")
      (by decide),
   sanitize_substitutions_applied.2.2 "no digits here" (by decide)⟩
